import Mathlib

/-!
Shallow embedding of the comment engine of this repository
(backend/models/Comment.js methods, backend/controllers/commentController.js
handlers, backend/utils/validation.js validators, and the client
reconciliation handlers of CommentItem.tsx), together with theorems that
settle the frozen claims about it.

User ids, comment ids and timestamps are modelled as naturals; text content
is modelled as a list of naturals (one per character).  Mongoose documents
become plain structures, the collection becomes a list of documents, and
each Express handler becomes a function from the collection and the request
arguments to a response paired with the updated collection.
-/

set_option maxRecDepth 4096

namespace CommentEngine

/-- One entry of a likes / dislikes array: the subdocument
pushed by addLike / addDislike ({ user: userId } with a createdAt default). -/
structure Reaction where
  user : Nat
  createdAt : Nat
deriving DecidableEq

/-- A document of the Comment collection (models/Comment.js schema).
The content field stores the sanitized (trimmed) text. -/
structure Comment where
  id : Nat
  content : List Nat
  author : Nat
  parentComment : Option Nat
  likes : List Reaction
  dislikes : List Reaction
  isEdited : Bool
  editedAt : Option Nat
  isActive : Bool
  createdAt : Nat
deriving DecidableEq

/-- The userId projection of a reaction array. -/
def usersOf (l : List Reaction) : List Nat :=
  l.map (fun r => r.user)

/-- commentSchema.methods.isLikedBy: whether some likes entry has this user. -/
def Comment.isLikedBy (c : Comment) (userId : Nat) : Bool :=
  c.likes.any (fun r => r.user == userId)

/-- commentSchema.methods.isDislikedBy. -/
def Comment.isDislikedBy (c : Comment) (userId : Nat) : Bool :=
  c.dislikes.any (fun r => r.user == userId)

/-- commentSchema.methods.addLike: the source first filters the user out of
dislikes, then pushes a likes entry unless isLikedBy already holds; the
dislikes filter does not touch likes, so the membership test is read off the
incoming document. -/
def Comment.addLike (c : Comment) (userId now : Nat) : Comment :=
  if c.isLikedBy userId then
    { c with dislikes := c.dislikes.filter (fun r => r.user != userId) }
  else
    { c with dislikes := c.dislikes.filter (fun r => r.user != userId),
             likes := c.likes ++ [⟨userId, now⟩] }

/-- commentSchema.methods.addDislike: symmetric to addLike. -/
def Comment.addDislike (c : Comment) (userId now : Nat) : Comment :=
  if c.isDislikedBy userId then
    { c with likes := c.likes.filter (fun r => r.user != userId) }
  else
    { c with likes := c.likes.filter (fun r => r.user != userId),
             dislikes := c.dislikes ++ [⟨userId, now⟩] }

/-- commentSchema.methods.removeReaction: filter the user out of both arrays. -/
def Comment.removeReaction (c : Comment) (userId : Nat) : Comment :=
  { c with likes := c.likes.filter (fun r => r.user != userId),
           dislikes := c.dislikes.filter (fun r => r.user != userId) }

/-- commentSchema.methods.canModify: only the author may edit or delete. -/
def Comment.canModify (c : Comment) (userId : Nat) : Bool :=
  c.author == userId

/-- Virtual likeCount: the length of the likes array. -/
def Comment.likeCount (c : Comment) : Nat := c.likes.length

/-- Virtual dislikeCount: the length of the dislikes array. -/
def Comment.dislikeCount (c : Comment) : Nat := c.dislikes.length

/-- The reaction-set invariant of the data model: at most one entry per
user in each array, and no user present in both. -/
def wellFormed (c : Comment) : Prop :=
  (usersOf c.likes).Nodup ∧ (usersOf c.dislikes).Nodup ∧
    ∀ u ∈ usersOf c.likes, u ∉ usersOf c.dislikes

instance (c : Comment) : Decidable (wellFormed c) := by
  unfold wellFormed; infer_instance

/-- One reaction operation by some user (with the server clock at `now`). -/
inductive ReactionOp where
  | like (userId now : Nat)
  | dislike (userId now : Nat)
  | remove (userId : Nat)
deriving DecidableEq

/-- Apply one reaction operation to a comment. -/
def applyOp (op : ReactionOp) (c : Comment) : Comment :=
  match op with
  | .like u now => c.addLike u now
  | .dislike u now => c.addDislike u now
  | .remove u => c.removeReaction u

/-- Apply a sequence of reaction operations, oldest first. -/
def applyOps (ops : List ReactionOp) (c : Comment) : Comment :=
  ops.foldl (fun c op => applyOp op c) c

-- Helper lemmas about the user projection.

theorem usersOf_filter_ne (l : List Reaction) (u : Nat) :
    usersOf (l.filter (fun r => r.user != u)) =
      (usersOf l).filter (fun x => x != u) := by
  induction l with
  | nil => rfl
  | cons r l ih =>
    simp only [usersOf, List.map_cons, List.filter_cons] at ih ⊢
    cases h : r.user != u
    · simpa [h, usersOf] using ih
    · simpa [h, usersOf] using ih

theorem usersOf_append (l1 l2 : List Reaction) :
    usersOf (l1 ++ l2) = usersOf l1 ++ usersOf l2 := by
  simp [usersOf]

theorem mem_usersOf_filter_ne {l : List Reaction} {u x : Nat} :
    x ∈ usersOf (l.filter (fun r => r.user != u)) ↔ x ∈ usersOf l ∧ x ≠ u := by
  rw [usersOf_filter_ne]
  simp [List.mem_filter]

theorem isLikedBy_iff {c : Comment} {u : Nat} :
    c.isLikedBy u = true ↔ u ∈ usersOf c.likes := by
  simp [Comment.isLikedBy, usersOf, List.any_eq_true, List.mem_map]

theorem not_isLikedBy_iff {c : Comment} {u : Nat} :
    c.isLikedBy u = false ↔ u ∉ usersOf c.likes := by
  rw [← isLikedBy_iff]
  cases c.isLikedBy u <;> simp

theorem isDislikedBy_iff {c : Comment} {u : Nat} :
    c.isDislikedBy u = true ↔ u ∈ usersOf c.dislikes := by
  simp [Comment.isDislikedBy, usersOf, List.any_eq_true, List.mem_map]

theorem not_isDislikedBy_iff {c : Comment} {u : Nat} :
    c.isDislikedBy u = false ↔ u ∉ usersOf c.dislikes := by
  rw [← isDislikedBy_iff]
  cases c.isDislikedBy u <;> simp

theorem nodup_usersOf_filter {l : List Reaction} (h : (usersOf l).Nodup) (u : Nat) :
    (usersOf (l.filter (fun r => r.user != u))).Nodup := by
  rw [usersOf_filter_ne]
  exact h.filter _

/-- addLike preserves the reaction-set invariant. -/
theorem addLike_wellFormed {c : Comment} (h : wellFormed c) (u now : Nat) :
    wellFormed (c.addLike u now) := by
  obtain ⟨hl, hd, hdisj⟩ := h
  unfold Comment.addLike
  cases hlk : c.isLikedBy u
  · -- not yet liked: the entry is pushed
    have hnotmem : u ∉ usersOf c.likes := not_isLikedBy_iff.mp hlk
    simp only [Bool.false_eq_true, if_false]
    refine ⟨?_, nodup_usersOf_filter hd u, ?_⟩
    · rw [usersOf_append]
      simp only [usersOf, List.map_cons, List.map_nil]
      rw [List.nodup_append]
      refine ⟨hl, List.nodup_singleton u, ?_⟩
      intro a ha hb
      rw [List.mem_singleton] at hb
      subst hb
      exact hnotmem ha
    · intro x hx
      rw [usersOf_append] at hx
      rcases List.mem_append.mp hx with hx1 | hx1
      · intro hx2
        exact hdisj x hx1 (mem_usersOf_filter_ne.mp hx2).1
      · have hxu : x = u := by simpa [usersOf] using hx1
        subst hxu
        intro hx2
        exact (mem_usersOf_filter_ne.mp hx2).2 rfl
  · -- already liked: only the dislikes filter applies
    simp only [if_true]
    refine ⟨hl, nodup_usersOf_filter hd u, ?_⟩
    intro x hx hx2
    exact hdisj x hx (mem_usersOf_filter_ne.mp hx2).1

/-- addDislike preserves the reaction-set invariant. -/
theorem addDislike_wellFormed {c : Comment} (h : wellFormed c) (u now : Nat) :
    wellFormed (c.addDislike u now) := by
  obtain ⟨hl, hd, hdisj⟩ := h
  unfold Comment.addDislike
  cases hdk : c.isDislikedBy u
  · have hnotmem : u ∉ usersOf c.dislikes := not_isDislikedBy_iff.mp hdk
    simp only [Bool.false_eq_true, if_false]
    refine ⟨nodup_usersOf_filter hl u, ?_, ?_⟩
    · rw [usersOf_append]
      simp only [usersOf, List.map_cons, List.map_nil]
      rw [List.nodup_append]
      refine ⟨hd, List.nodup_singleton u, ?_⟩
      intro a ha hb
      rw [List.mem_singleton] at hb
      subst hb
      exact hnotmem ha
    · intro x hx hx2
      rw [usersOf_append] at hx2
      have hxne : x ≠ u := (mem_usersOf_filter_ne.mp hx).2
      rcases List.mem_append.mp hx2 with hx1 | hx1
      · exact hdisj x (mem_usersOf_filter_ne.mp hx).1 hx1
      · exact hxne (by simpa [usersOf] using hx1)
  · simp only [if_true]
    refine ⟨nodup_usersOf_filter hl u, hd, ?_⟩
    intro x hx
    exact hdisj x (mem_usersOf_filter_ne.mp hx).1

/-- removeReaction preserves the reaction-set invariant. -/
theorem removeReaction_wellFormed {c : Comment} (h : wellFormed c) (u : Nat) :
    wellFormed (c.removeReaction u) := by
  obtain ⟨hl, hd, hdisj⟩ := h
  refine ⟨nodup_usersOf_filter hl u, nodup_usersOf_filter hd u, ?_⟩
  intro x hx hx2
  exact hdisj x (mem_usersOf_filter_ne.mp hx).1 (mem_usersOf_filter_ne.mp hx2).1

theorem applyOp_wellFormed {c : Comment} (h : wellFormed c) (op : ReactionOp) :
    wellFormed (applyOp op c) := by
  cases op with
  | like u now => exact addLike_wellFormed h u now
  | dislike u now => exact addDislike_wellFormed h u now
  | remove u => exact removeReaction_wellFormed h u

/-- C1: the reaction-set invariant holds after any sequence of like /
dislike / remove-reaction operations, each transition being computed by the
server from current set membership: the likes and dislikes arrays each hold
at most one entry per user, and no user appears in both. -/
theorem reaction_sets_invariant (c : Comment) (ops : List ReactionOp)
    (h : wellFormed c) : wellFormed (applyOps ops c) := by
  induction ops generalizing c with
  | nil => exact h
  | cons op ops ih => exact ih (applyOp op c) (applyOp_wellFormed h op)

/-- Witness for C1 at a concrete comment and operation sequence. -/
theorem reaction_sets_invariant_witness :
    wellFormed { id := 1, content := [104], author := 7, parentComment := none,
                 likes := [⟨3, 0⟩], dislikes := [⟨4, 0⟩], isEdited := false,
                 editedAt := none, isActive := true, createdAt := 0 } ∧
      wellFormed (applyOps [.like 4 1, .dislike 3 2, .remove 4, .like 5 3]
        { id := 1, content := [104], author := 7, parentComment := none,
          likes := [⟨3, 0⟩], dislikes := [⟨4, 0⟩], isEdited := false,
          editedAt := none, isActive := true, createdAt := 0 }) :=
  ⟨by decide, reaction_sets_invariant _ _ (by decide)⟩

/-! The collection and the Express handlers of commentController.js. -/

/-- Compact constructor for sample documents in witnesses. -/
def mkComment (id author : Nat) (parent : Option Nat)
    (likes dislikes : List Reaction) (active : Bool) (createdAt : Nat) :
    Comment :=
  { id := id, content := [104], author := author, parentComment := parent,
    likes := likes, dislikes := dislikes, isEdited := false,
    editedAt := none, isActive := active, createdAt := createdAt }

/-- Comment.findById over the collection. -/
def findById (db : List Comment) (id : Nat) : Option Comment :=
  db.find? (fun c => c.id == id)

/-- The id of a found document matches the looked-up key. -/
theorem findById_some_id {db : List Comment} {cid : Nat} {c : Comment}
    (h : findById db cid = some c) : c.id = cid := by
  unfold findById at h
  have h2 := List.find?_some h
  simpa using h2

/-- comment.save(): write the (mutated) document back by primary key. -/
def updateById (db : List Comment) (id : Nat) (c : Comment) : List Comment :=
  db.map (fun x => if x.id == id then c else x)

/-- Response of the like / dislike / remove-reaction handlers. -/
inductive ReactResp where
  | ok (likeCount dislikeCount : Nat) (isLikedByUser isDislikedByUser : Bool)
  | notFound
deriving DecidableEq

/-- Response of the deleteComment handler. -/
inductive DeleteResp where
  | ok
  | notFound
  | forbidden
deriving DecidableEq

/-- Response of the updateComment handler. -/
inductive UpdateResp where
  | ok (c : Comment)
  | validationError
  | notFound
  | forbidden
deriving DecidableEq

/-- Whitespace codepoints stripped by the validator's trim step. -/
def isWhitespaceChar (c : Nat) : Bool :=
  c == 32 || c == 9 || c == 10 || c == 13 || c == 12 || c == 11

/-- The trim sanitizer of validateCreateComment / validateUpdateComment:
strip leading and trailing whitespace. -/
def trimChars (s : List Nat) : List Nat :=
  ((s.dropWhile isWhitespaceChar).reverse.dropWhile isWhitespaceChar).reverse

/-- The content rule of utils/validation.js: after trim, the length must be
between 1 and 500.  (The escape sanitizer rewrites a handful of codepoints
to HTML entities after this check; no settled property depends on the
stored text, so it is not modelled.) -/
def validContent (s : List Nat) : Bool :=
  1 ≤ (trimChars s).length && (trimChars s).length ≤ 500

/-- likeComment handler: 404 when missing or inactive, else addLike, save,
and answer with the refreshed counts and hard-coded flags. -/
def likeComment (db : List Comment) (cid userId now : Nat) : ReactResp × List Comment :=
  match findById db cid with
  | none => (.notFound, db)
  | some c =>
    if c.isActive = false then (.notFound, db)
    else
      let c1 := c.addLike userId now
      (.ok c1.likeCount c1.dislikeCount true false, updateById db cid c1)

/-- dislikeComment handler: symmetric to likeComment. -/
def dislikeComment (db : List Comment) (cid userId now : Nat) : ReactResp × List Comment :=
  match findById db cid with
  | none => (.notFound, db)
  | some c =>
    if c.isActive = false then (.notFound, db)
    else
      let c1 := c.addDislike userId now
      (.ok c1.likeCount c1.dislikeCount false true, updateById db cid c1)

/-- removeReaction handler: 404 when missing or inactive, else clear the
user from both reaction arrays, save, and answer with the counts. -/
def removeReaction (db : List Comment) (cid userId : Nat) : ReactResp × List Comment :=
  match findById db cid with
  | none => (.notFound, db)
  | some c =>
    if c.isActive = false then (.notFound, db)
    else
      let c1 := c.removeReaction userId
      (.ok c1.likeCount c1.dislikeCount false false, updateById db cid c1)

/-- deleteComment handler: note the 404 guard checks only that a document
was found, not that it is still active; then the author check, then the
soft delete. -/
def deleteComment (db : List Comment) (cid userId : Nat) : DeleteResp × List Comment :=
  match findById db cid with
  | none => (.notFound, db)
  | some c =>
    if c.canModify userId = false then (.forbidden, db)
    else (.ok, updateById db cid { c with isActive := false })

/-- updateComment handler: validation first, then 404 on missing or
inactive, then the author check, then the edit. -/
def updateComment (db : List Comment) (cid userId : Nat) (content : List Nat)
    (now : Nat) : UpdateResp × List Comment :=
  if validContent content = false then (.validationError, db)
  else
    match findById db cid with
    | none => (.notFound, db)
    | some c =>
      if c.isActive = false then (.notFound, db)
      else if c.canModify userId = false then (.forbidden, db)
      else
        let c1 := { c with content := trimChars content, isEdited := true,
                           editedAt := some now }
        (.ok c1, updateById db cid c1)

/-! Helper lemmas about the collection operations and the methods. -/

theorem reactionFilter_idem (l : List Reaction) (u : Nat) :
    ((l.filter (fun r => r.user != u)).filter (fun r => r.user != u)) =
      l.filter (fun r => r.user != u) := by
  induction l with
  | nil => rfl
  | cons r l ih =>
    cases h : r.user != u <;> simp [List.filter_cons, h, ih]

theorem reactionFilter_eq_self {l : List Reaction} {u : Nat}
    (h : u ∉ usersOf l) : l.filter (fun r => r.user != u) = l := by
  apply List.filter_eq_self.mpr
  intro r hr
  have : r.user ≠ u := by
    intro heq
    exact h (List.mem_map.mpr ⟨r, hr, heq⟩)
  simpa using this

theorem addLike_id (c : Comment) (u t : Nat) : (c.addLike u t).id = c.id := by
  unfold Comment.addLike
  cases c.isLikedBy u <;> simp

theorem addLike_isActive (c : Comment) (u t : Nat) :
    (c.addLike u t).isActive = c.isActive := by
  unfold Comment.addLike
  cases c.isLikedBy u <;> simp

theorem removeReaction_id (c : Comment) (u : Nat) :
    (c.removeReaction u).id = c.id := rfl

theorem removeReaction_isActive (c : Comment) (u : Nat) :
    (c.removeReaction u).isActive = c.isActive := rfl

theorem addLike_isLikedBy (c : Comment) (u t : Nat) :
    (c.addLike u t).isLikedBy u = true := by
  unfold Comment.addLike
  cases h : c.isLikedBy u
  · simp [Comment.isLikedBy]
  · simpa [Comment.isLikedBy] using h

/-- Liking is idempotent at the document level. -/
theorem addLike_addLike (c : Comment) (u t1 t2 : Nat) :
    (c.addLike u t1).addLike u t2 = c.addLike u t1 := by
  have hlk : (c.addLike u t1).isLikedBy u = true := addLike_isLikedBy c u t1
  unfold Comment.addLike at hlk ⊢
  cases h : c.isLikedBy u <;>
    simp only [h, Bool.false_eq_true, if_false, if_true] at hlk ⊢ <;>
    simp only [hlk, if_true] <;>
    simp [reactionFilter_idem]

/-- Removing a reaction is idempotent at the document level. -/
theorem removeReaction_removeReaction (c : Comment) (u : Nat) :
    (c.removeReaction u).removeReaction u = c.removeReaction u := by
  unfold Comment.removeReaction
  simp [reactionFilter_idem]

/-- Removing a reaction the user does not hold changes nothing. -/
theorem removeReaction_noop {c : Comment} {u : Nat}
    (hl : u ∉ usersOf c.likes) (hd : u ∉ usersOf c.dislikes) :
    c.removeReaction u = c := by
  unfold Comment.removeReaction
  rw [reactionFilter_eq_self hl, reactionFilter_eq_self hd]

theorem findById_updateById (db : List Comment) (cid : Nat) (x c : Comment)
    (hfind : findById db cid = some x) (hc : c.id = cid) :
    findById (updateById db cid c) cid = some c := by
  have hx : x.id = cid := findById_some_id hfind
  unfold findById updateById
  rw [List.find?_map]
  have hfun : ((fun c0 : Comment => c0.id == cid) ∘
      (fun x0 => if x0.id == cid then c else x0)) =
      (fun x0 : Comment => x0.id == cid) := by
    funext x0
    by_cases h : (x0.id == cid) = true
    · simp [Function.comp, h, hc]
    · simp only [Bool.not_eq_true] at h
      simp [Function.comp, h]
  rw [hfun]
  unfold findById at hfind
  rw [hfind]
  simp [hx]

theorem updateById_updateById (db : List Comment) (cid : Nat) (c1 c2 : Comment)
    (hc1 : c1.id = cid) :
    updateById (updateById db cid c1) cid c2 = updateById db cid c2 := by
  unfold updateById
  rw [List.map_map]
  congr 1
  funext x
  by_cases h : (x.id == cid) = true
  · simp [Function.comp, h, hc1]
  · simp only [Bool.not_eq_true] at h
    simp [Function.comp, h]

theorem updateById_of_absent (db : List Comment) (cid : Nat) (c : Comment)
    (h : ∀ y ∈ db, y.id ≠ cid) : updateById db cid c = db := by
  induction db with
  | nil => rfl
  | cons x db ih =>
    unfold updateById at ih ⊢
    have hx : (x.id == cid) = false := by
      simpa using h x (List.mem_cons_self x db)
    simp only [List.map_cons, hx, Bool.false_eq_true, if_false]
    rw [ih (fun y hy => h y (List.mem_cons_of_mem x hy))]

/-- Writing back the very document that was found leaves the collection
unchanged, provided ids are unique (as for a primary key). -/
theorem updateById_found_self (db : List Comment) (cid : Nat) (c : Comment)
    (hfind : findById db cid = some c)
    (huniq : (db.map (fun x => x.id)).Nodup) :
    updateById db cid c = db := by
  induction db with
  | nil => simp [updateById]
  | cons x db ih =>
    rw [List.map_cons, List.nodup_cons] at huniq
    unfold findById at hfind
    rw [List.find?_cons] at hfind
    cases h : (x.id == cid) with
    | true =>
      rw [h] at hfind
      simp only [cond_true, Option.some.injEq] at hfind
      subst hfind
      have habs : ∀ y ∈ db, y.id ≠ cid := by
        intro y hy heq
        apply huniq.1
        rw [show x.id = cid from by simpa using h, ← heq]
        exact List.mem_map.mpr ⟨y, hy, rfl⟩
      have htail : updateById db cid x = db := updateById_of_absent db cid x habs
      unfold updateById at htail ⊢
      rw [List.map_cons]
      simp only [h, if_true]
      rw [htail]
    | false =>
      rw [h] at hfind
      simp only [cond_false] at hfind
      have htail : updateById db cid c = db := ih hfind huniq.2
      unfold updateById at htail ⊢
      rw [List.map_cons]
      simp only [h, Bool.false_eq_true, if_false]
      rw [htail]

/-- C8: liking twice consecutively by the same user yields exactly the
state of liking once, and the second call still answers success with the
same counts and flags as the first. -/
theorem like_twice_idempotent (db : List Comment) (cid u t1 t2 : Nat)
    (c : Comment) (hfind : findById db cid = some c)
    (hact : c.isActive = true) :
    likeComment (likeComment db cid u t1).2 cid u t2 =
      likeComment db cid u t1 := by
  have hcid' : c.id = cid := findById_some_id hfind
  have hc1id : (c.addLike u t1).id = cid := by rw [addLike_id, hcid']
  have hstep : likeComment db cid u t1 =
      (.ok (c.addLike u t1).likeCount (c.addLike u t1).dislikeCount true false,
        updateById db cid (c.addLike u t1)) := by
    simp [likeComment, hfind, hact]
  rw [hstep]
  have hfind2 : findById (updateById db cid (c.addLike u t1)) cid =
      some (c.addLike u t1) := findById_updateById db cid c _ hfind hc1id
  have hact2 : (c.addLike u t1).isActive = true := by
    rw [addLike_isActive]; exact hact
  simp only [likeComment, hfind2, hact2, Bool.true_eq_false, if_false]
  rw [addLike_addLike, updateById_updateById db cid _ _ hc1id]

/-- Witness for C8 at a concrete collection. -/
theorem like_twice_idempotent_witness :
    likeComment (likeComment [mkComment 1 7 none [] [⟨5, 0⟩] true 0] 1 5 2).2
        1 5 3 =
      likeComment [mkComment 1 7 none [] [⟨5, 0⟩] true 0] 1 5 2 :=
  like_twice_idempotent _ _ _ _ _ (mkComment 1 7 none [] [⟨5, 0⟩] true 0)
    (by decide) (by decide)

/-- C10: remove-reaction succeeds on any active comment; with no reaction
held it is a no-op returning the current counts and leaving the collection
untouched, and a second consecutive remove-reaction call reproduces the
first call's response and state exactly. -/
theorem remove_reaction_noop_idempotent (db : List Comment) (cid u : Nat)
    (c : Comment) (hfind : findById db cid = some c)
    (hact : c.isActive = true)
    (hl : u ∉ usersOf c.likes) (hd : u ∉ usersOf c.dislikes)
    (huniq : (db.map (fun x => x.id)).Nodup) :
    removeReaction db cid u =
      (.ok c.likeCount c.dislikeCount false false, db) ∧
    ∀ (db2 : List Comment) (cid2 u2 : Nat) (c2 : Comment),
      findById db2 cid2 = some c2 → c2.isActive = true →
        removeReaction (removeReaction db2 cid2 u2).2 cid2 u2 =
          removeReaction db2 cid2 u2 := by
  constructor
  · have hnoop : c.removeReaction u = c := removeReaction_noop hl hd
    simp [removeReaction, hfind, hact, hnoop,
      updateById_found_self db cid c hfind huniq]
  · intro db2 cid2 u2 c2 hfind2 hact2
    have hcid' : c2.id = cid2 := findById_some_id hfind2
    have hc1id : (c2.removeReaction u2).id = cid2 := by
      rw [removeReaction_id, hcid']
    have hstep : removeReaction db2 cid2 u2 =
        (.ok (c2.removeReaction u2).likeCount
          (c2.removeReaction u2).dislikeCount false false,
          updateById db2 cid2 (c2.removeReaction u2)) := by
      simp [removeReaction, hfind2, hact2]
    rw [hstep]
    have hfind3 : findById (updateById db2 cid2 (c2.removeReaction u2)) cid2 =
        some (c2.removeReaction u2) :=
      findById_updateById db2 cid2 c2 _ hfind2 hc1id
    have hact3 : (c2.removeReaction u2).isActive = true := by
      rw [removeReaction_isActive]; exact hact2
    simp only [removeReaction, hfind3, hact3, Bool.true_eq_false, if_false]
    rw [removeReaction_removeReaction, updateById_updateById db2 cid2 _ _ hc1id]

/-- Witness for C10 at a concrete collection. -/
theorem remove_reaction_noop_idempotent_witness :
    removeReaction [mkComment 1 7 none [⟨3, 0⟩] [⟨4, 0⟩] true 0] 1 5 =
      (.ok 1 1 false false, [mkComment 1 7 none [⟨3, 0⟩] [⟨4, 0⟩] true 0]) :=
  (remove_reaction_noop_idempotent _ _ _
    (mkComment 1 7 none [⟨3, 0⟩] [⟨4, 0⟩] true 0) (by decide) (by decide)
    (by decide) (by decide) (by decide)).1

/-- C2 counterexample: deleting a comment whose isActive is already false
answers success (the guard checks only that a document was found), not the
not-found error the claim requires. -/
theorem delete_inactive_succeeds :
    (deleteComment [mkComment 1 7 none [] [] false 0] 1 7).1 = DeleteResp.ok ∧
    (deleteComment [mkComment 1 7 none [] [] false 0] 1 7).1 ≠
      DeleteResp.notFound := by
  decide

/-- C2 amended: Update, React and RemoveReaction on a missing or inactive
comment fail with not-found and leave the collection unchanged; Delete
fails with not-found only when the comment is missing, and a Delete of an
already-inactive comment by its author succeeds again, re-applying the
soft delete. -/
theorem mutating_not_found_behavior (db : List Comment) (cid u now : Nat)
    (content : List Nat) (c : Comment)
    (hvalid : validContent content = true)
    (hfind : findById db cid = some c) (hinact : c.isActive = false) :
    updateComment db cid u content now = (.notFound, db) ∧
    likeComment db cid u now = (.notFound, db) ∧
    dislikeComment db cid u now = (.notFound, db) ∧
    removeReaction db cid u = (.notFound, db) ∧
    (c.canModify u = true →
      deleteComment db cid u = (.ok, updateById db cid { c with isActive := false })) ∧
    ∀ (db2 : List Comment) (cid2 u2 now2 : Nat),
      findById db2 cid2 = none →
        updateComment db2 cid2 u2 content now2 = (.notFound, db2) ∧
        likeComment db2 cid2 u2 now2 = (.notFound, db2) ∧
        dislikeComment db2 cid2 u2 now2 = (.notFound, db2) ∧
        removeReaction db2 cid2 u2 = (.notFound, db2) ∧
        deleteComment db2 cid2 u2 = (.notFound, db2) := by
  refine ⟨?_, ?_, ?_, ?_, ?_, ?_⟩
  · simp [updateComment, hvalid, hfind, hinact]
  · simp [likeComment, hfind, hinact]
  · simp [dislikeComment, hfind, hinact]
  · simp [removeReaction, hfind, hinact]
  · intro hmod
    simp [deleteComment, hfind, hmod]
  · intro db2 cid2 u2 now2 hnone
    exact ⟨by simp [updateComment, hvalid, hnone],
      by simp [likeComment, hnone], by simp [dislikeComment, hnone],
      by simp [removeReaction, hnone], by simp [deleteComment, hnone]⟩

/-- Witness for the amended C2 at a concrete collection. -/
theorem mutating_not_found_behavior_witness :
    updateComment [mkComment 1 7 none [] [] false 0] 1 7 [104] 5 =
      (.notFound, [mkComment 1 7 none [] [] false 0]) :=
  (mutating_not_found_behavior _ _ _ _ _ (mkComment 1 7 none [] [] false 0)
    (by decide) (by decide) (by decide)).1

/-! createComment handler and the content validation claims. -/

/-- Response of the createComment handler. -/
inductive CreateResp where
  | created (c : Comment)
  | validationError
  | parentNotFound
deriving DecidableEq

/-- The document persisted by Comment.create in createComment: sanitized
content, author from the caller identity, parentComment from the request
(or null), and the schema defaults. -/
def newComment (content : List Nat) (parentId : Option Nat)
    (authorId newId now : Nat) : Comment :=
  { id := newId, content := trimChars content, author := authorId,
    parentComment := parentId, likes := [], dislikes := [],
    isEdited := false, editedAt := none, isActive := true, createdAt := now }

/-- createComment handler: validation first (express-validator runs before
the handler); when a parentComment id is given, the referenced document
must be found and active — nothing else about the parent is checked —
then the new document is persisted. -/
def createComment (db : List Comment) (content : List Nat)
    (parentId : Option Nat) (authorId newId now : Nat) :
    CreateResp × List Comment :=
  if validContent content = false then (.validationError, db)
  else
    match parentId with
    | some pid =>
      match findById db pid with
      | none => (.parentNotFound, db)
      | some p =>
        if p.isActive = false then (.parentNotFound, db)
        else (.created (newComment content parentId authorId newId now),
          db ++ [newComment content parentId authorId newId now])
    | none => (.created (newComment content parentId authorId newId now),
        db ++ [newComment content parentId authorId newId now])

/-- C3 counterexample: a Create whose parent is itself a reply is accepted
and persisted.  The collection holds a top-level comment (id 1) and a
reply to it (id 2, parentComment = 1); creating a comment with
parentId = 2 answers created and grows the collection. -/
theorem reply_of_reply_accepted :
    (mkComment 2 8 (some 1) [] [] true 1).parentComment ≠ none ∧
    (createComment [mkComment 1 7 none [] [] true 0,
          mkComment 2 8 (some 1) [] [] true 1] [104] (some 2) 9 3 2).1 =
      CreateResp.created (newComment [104] (some 2) 9 3 2) ∧
    ((createComment [mkComment 1 7 none [] [] true 0,
          mkComment 2 8 (some 1) [] [] true 1] [104] (some 2) 9 3 2).2).length
      = 3 := by
  decide

/-- C3 amended: a Create carrying a parentId succeeds exactly when the
referenced comment exists and is active — whether or not that parent is
itself top-level — and the new comment is persisted exactly when the call
succeeds; a missing or inactive parent is rejected before anything is
persisted. -/
theorem create_reply_parent_check (db : List Comment) (content : List Nat)
    (pid authorId newId now : Nat)
    (hvalid : validContent content = true) :
    (∀ p, findById db pid = some p → p.isActive = true →
      createComment db content (some pid) authorId newId now =
        (.created (newComment content (some pid) authorId newId now),
          db ++ [newComment content (some pid) authorId newId now])) ∧
    (findById db pid = none →
      createComment db content (some pid) authorId newId now =
        (.parentNotFound, db)) ∧
    (∀ p, findById db pid = some p → p.isActive = false →
      createComment db content (some pid) authorId newId now =
        (.parentNotFound, db)) := by
  refine ⟨?_, ?_, ?_⟩
  · intro p hp hact
    simp [createComment, hvalid, hp, hact]
  · intro hnone
    simp [createComment, hvalid, hnone]
  · intro p hp hinact
    simp [createComment, hvalid, hp, hinact]

/-- Witness for the amended C3 at a concrete collection. -/
theorem create_reply_parent_check_witness :
    createComment [mkComment 1 7 none [] [] true 0] [104] (some 1) 9 2 3 =
      (.created (newComment [104] (some 1) 9 2 3),
        [mkComment 1 7 none [] [] true 0] ++ [newComment [104] (some 1) 9 2 3]) :=
  (create_reply_parent_check [mkComment 1 7 none [] [] true 0] [104] 1 9 2 3
    (by decide)).1 (mkComment 1 7 none [] [] true 0) (by decide) (by decide)

/-- C7: a Create or Update is rejected with the validation error exactly
when the trimmed content length is outside 1..500; in particular content
whose trimmed length exceeds 500 is rejected and the collection is left
unchanged. -/
theorem content_validation (db : List Comment) (content : List Nat)
    (parentId : Option Nat) (cid u authorId newId now : Nat) :
    ((createComment db content parentId authorId newId now).1 =
        CreateResp.validationError ↔
      ¬(1 ≤ (trimChars content).length ∧ (trimChars content).length ≤ 500)) ∧
    ((updateComment db cid u content now).1 = UpdateResp.validationError ↔
      ¬(1 ≤ (trimChars content).length ∧ (trimChars content).length ≤ 500)) ∧
    (500 < (trimChars content).length →
      createComment db content parentId authorId newId now =
        (.validationError, db) ∧
      updateComment db cid u content now = (.validationError, db)) := by
  refine ⟨?_, ?_, ?_⟩
  · cases hv : validContent content
    · have hrange : ¬(1 ≤ (trimChars content).length ∧
          (trimChars content).length ≤ 500) := by
        simpa [validContent] using hv
      simp [createComment, hv, hrange]
    · have hrange : 1 ≤ (trimChars content).length ∧
          (trimChars content).length ≤ 500 := by
        simpa [validContent] using hv
      simp only [createComment, hv, Bool.true_eq_false, if_false, hrange,
        not_true_eq_false, iff_false]
      rcases parentId with _ | pid
      · simp
      · cases hf : findById db pid with
        | none => simp [hf]
        | some p =>
          cases hpa : p.isActive <;> simp [hf, hpa]
  · cases hv : validContent content
    · have hrange : ¬(1 ≤ (trimChars content).length ∧
          (trimChars content).length ≤ 500) := by
        simpa [validContent] using hv
      simp [updateComment, hv, hrange]
    · have hrange : 1 ≤ (trimChars content).length ∧
          (trimChars content).length ≤ 500 := by
        simpa [validContent] using hv
      simp only [updateComment, hv, Bool.true_eq_false, if_false, hrange,
        not_true_eq_false, iff_false]
      cases hf : findById db cid with
      | none => simp [hf]
      | some c =>
        cases hca : c.isActive
        · simp [hf, hca]
        · cases hcm : c.canModify u <;> simp [hf, hca, hcm]
  · intro hlong
    have hv : validContent content = false := by
      simp [validContent]
      omega
    exact ⟨by simp [createComment, hv], by simp [updateComment, hv]⟩

/-- Witness for C7: a 501-character content is rejected by both Create and
Update with no change to the collection. -/
theorem content_validation_witness :
    createComment [] (List.replicate 501 104) none 7 1 0 =
      (.validationError, []) ∧
    updateComment [] 1 7 (List.replicate 501 104) 0 =
      (.validationError, []) :=
  (content_validation [] (List.replicate 501 104) none 1 7 7 1 0).2.2
    (by decide)

/-! Listing: sorting, pagination and the getComments / getReplies handlers. -/

/-- The sort query parameter (the handlers reject any other value). -/
inductive SortOption where
  | newest
  | mostLiked
  | mostDisliked
deriving DecidableEq

/-- Three-way comparison of naturals. -/
def cmpNat (a b : Nat) : Ordering :=
  if a < b then .lt else if b < a then .gt else .eq

/-- Modelled from the spec: the persistence adapter's sorted range query
(the storage engine, MongoDB, is not part of src/).  A likes / dislikes
entry is a subdocument; BSON compares subdocuments field by field, here
user then createdAt. -/
def cmpReaction (x y : Reaction) : Ordering :=
  match cmpNat x.user y.user with
  | .eq => cmpNat x.createdAt y.createdAt
  | o => o

/-- Modelled from the spec: for a sort on an array-valued field, the store
ranks each document by an element of the array — the maximum element for a
descending sort — never by the array's length; an empty array ranks below
every document. -/
def maxReaction (l : List Reaction) : Option Reaction :=
  l.foldl (fun acc r =>
    match acc with
    | none => some r
    | some m => if cmpReaction m r = .lt then some r else some m) none

/-- Comparison of the (optional) array sort keys: an absent key ranks
lowest. -/
def cmpKey : Option Reaction → Option Reaction → Ordering
  | none, none => .eq
  | none, some _ => .lt
  | some _, none => .gt
  | some a, some b => cmpReaction a b

/-- The sortObj of the handlers, interpreted by the store: mostLiked and
mostDisliked sort on the raw array field descending with createdAt
descending second; newest sorts on createdAt descending.  `sortLE a b`
means a may be placed before b. -/
def sortLE (s : SortOption) (a b : Comment) : Bool :=
  match s with
  | .newest => b.createdAt ≤ a.createdAt
  | .mostLiked =>
    match cmpKey (maxReaction a.likes) (maxReaction b.likes) with
    | .gt => true
    | .lt => false
    | .eq => b.createdAt ≤ a.createdAt
  | .mostDisliked =>
    match cmpKey (maxReaction a.dislikes) (maxReaction b.dislikes) with
    | .gt => true
    | .lt => false
    | .eq => b.createdAt ≤ a.createdAt

/-- Stable insertion into a sorted list. -/
def insertSorted {α : Type} (le : α → α → Bool) (x : α) : List α → List α
  | [] => [x]
  | y :: ys => if le x y then x :: y :: ys else y :: insertSorted le x ys

/-- Stable sort by a Boolean comparator. -/
def sortList {α : Type} (le : α → α → Bool) : List α → List α
  | [] => []
  | x :: xs => insertSorted le x (sortList le xs)

/-- The sorted range query issued by the handlers. -/
def sortComments (s : SortOption) (l : List Comment) : List Comment :=
  sortList (sortLE s) l

/-- The ordering the spec words demand for mostLiked: primarily by the
size of the likes set descending, createdAt descending as tie-break. -/
def specMostLikedLE (a b : Comment) : Bool :=
  if a.likes.length = b.likes.length then b.createdAt ≤ a.createdAt
  else b.likes.length < a.likes.length

/-- Sorting as the spec words describe mostLiked. -/
def specSortMostLiked (l : List Comment) : List Comment :=
  sortList specMostLikedLE l

theorem length_insertSorted {α : Type} (le : α → α → Bool) (x : α)
    (l : List α) : (insertSorted le x l).length = l.length + 1 := by
  induction l with
  | nil => rfl
  | cons y ys ih =>
    unfold insertSorted
    cases le x y <;> simp [ih]

theorem length_sortList {α : Type} (le : α → α → Bool) (l : List α) :
    (sortList le l).length = l.length := by
  induction l with
  | nil => rfl
  | cons x xs ih =>
    unfold sortList
    rw [length_insertSorted, ih, List.length_cons]

theorem length_sortComments (s : SortOption) (l : List Comment) :
    (sortComments s l).length = l.length := length_sortList _ l

/-- The pagination block computed at the end of getComments / getReplies. -/
structure Pagination where
  currentPage : Nat
  limit : Nat
  total : Nat
  totalPages : Nat
  hasNextPage : Bool
  hasPrevPage : Bool
  isFirstPage : Bool
  isLastPage : Bool
  startIndex : Nat
  endIndex : Nat
  remainingItems : Nat
deriving DecidableEq

/-- Math.ceil(total / limit) on naturals. -/
def ceilDiv (a b : Nat) : Nat := (a + b - 1) / b

/-- The pagination metadata of the handlers, for the (already clamped)
page and limit. -/
def buildPagination (total page limit : Nat) : Pagination :=
  { currentPage := page
    limit := limit
    total := total
    totalPages := ceilDiv total limit
    hasNextPage := decide (page < ceilDiv total limit)
    hasPrevPage := decide (1 < page)
    isFirstPage := page == 1
    isLastPage := page == ceilDiv total limit
    startIndex := (page - 1) * limit + 1
    endIndex := min ((page - 1) * limit + limit) total
    remainingItems := total - ((page - 1) * limit + limit) }

/-- Result of a list call. -/
inductive ListResult where
  | success (comments : List Comment) (pagination : Pagination)
  | pageError (currentPage totalPages total : Nat)
  | notFound
deriving DecidableEq

/-- getComments handler: clamp page and limit, filter the collection by
activity and parent, sort per the requested option, slice, and either
report a page beyond the available pages (only when there is at least one
page) or answer the slice with the pagination block. -/
def getComments (db : List Comment) (pageReq limitReq : Nat)
    (sort : SortOption) (parentFilter : Option Nat) : ListResult :=
  let page := max 1 pageReq
  let limit := min (max 1 limitReq) 100
  let skip := (page - 1) * limit
  let filtered := db.filter
    (fun c => c.isActive && c.parentComment == parentFilter)
  let comments := ((sortComments sort filtered).drop skip).take limit
  let total := filtered.length
  let totalPages := ceilDiv total limit
  if comments.length == 0 && decide (totalPages < page) &&
      decide (0 < totalPages) then
    .pageError page totalPages total
  else
    .success comments (buildPagination total page limit)

/-- getReplies handler: same clamps and slicing over the replies of one
parent, after requiring the parent to exist and be active. -/
def getReplies (db : List Comment) (pid pageReq limitReq : Nat)
    (sort : SortOption) : ListResult :=
  let page := max 1 pageReq
  let limit := min (max 1 limitReq) 100
  let skip := (page - 1) * limit
  match findById db pid with
  | none => .notFound
  | some parent =>
    if parent.isActive = false then .notFound
    else
      let filtered := db.filter
        (fun c => c.parentComment == some pid && c.isActive)
      let replies := ((sortComments sort filtered).drop skip).take limit
      let total := filtered.length
      let totalPages := ceilDiv total limit
      if replies.length == 0 && decide (totalPages < page) &&
          decide (0 < totalPages) then
        .pageError page totalPages total
      else
        .success replies (buildPagination total page limit)

/-- ceilDiv is the least n with total ≤ n * limit. -/
theorem ceilDiv_le_iff (a b n : Nat) (hb : 0 < b) :
    ceilDiv a b ≤ n ↔ a ≤ n * b := by
  unfold ceilDiv
  constructor
  · intro h
    have h2 : a + b - 1 < (n + 1) * b :=
      (Nat.div_lt_iff_lt_mul hb).mp (Nat.lt_succ_of_le h)
    rw [Nat.succ_mul] at h2
    generalize n * b = k at h2 ⊢
    omega
  · intro h
    have h2 : a + b - 1 < (n + 1) * b := by
      rw [Nat.succ_mul]
      generalize n * b = k at h ⊢
      omega
    exact Nat.lt_succ_iff.mp ((Nat.div_lt_iff_lt_mul hb).mpr h2)

theorem ceilDiv_pos (a b : Nat) (hb : 0 < b) (ha : 0 < a) :
    0 < ceilDiv a b := by
  by_contra h
  have hz : ceilDiv a b ≤ 0 := by omega
  have := (ceilDiv_le_iff a b 0 hb).mp hz
  omega

theorem total_le_of_beyond (total limit page : Nat) (hb : 0 < limit)
    (hbeyond : ceilDiv total limit < page) :
    total ≤ (page - 1) * limit := by
  have h1 : total ≤ ceilDiv total limit * limit :=
    (ceilDiv_le_iff total limit (ceilDiv total limit) hb).mp le_rfl
  calc total ≤ ceilDiv total limit * limit := h1
    _ ≤ (page - 1) * limit := Nat.mul_le_mul_right _ (by omega)

/-- A slice past the end of the sorted list is empty. -/
theorem slice_nil (s : SortOption) (l : List Comment) (skip limit : Nat)
    (h : l.length ≤ skip) :
    ((sortComments s l).drop skip).take limit = [] := by
  have hd : (sortComments s l).drop skip = [] := by
    apply List.drop_eq_nil_of_le
    rw [length_sortComments]
    exact h
  rw [hd, List.take_nil]

/-- C5: for every successful list call the pagination block is the
arithmetic of total, page and limit that the spec states: startIndex,
endIndex, remainingItems, the ceiling totalPages, and the four page flags;
instantiated at total = 25, limit = 10 for pages 1 and 3. -/
theorem pagination_arithmetic (total page limit : Nat)
    (hp : 1 ≤ page) (hl : 1 ≤ limit) :
    (buildPagination total page limit).startIndex = (page - 1) * limit + 1 ∧
    (buildPagination total page limit).endIndex = min (page * limit) total ∧
    ((buildPagination total page limit).remainingItems : Int) =
      max 0 ((total : Int) - (page : Int) * (limit : Int)) ∧
    (∀ n : Nat, (buildPagination total page limit).totalPages ≤ n ↔
      total ≤ n * limit) ∧
    ((buildPagination total page limit).hasNextPage = true ↔
      page < (buildPagination total page limit).totalPages) ∧
    ((buildPagination total page limit).hasPrevPage = true ↔ 1 < page) ∧
    ((buildPagination total page limit).isFirstPage = true ↔ page = 1) ∧
    ((buildPagination total page limit).isLastPage = true ↔
      page = (buildPagination total page limit).totalPages) ∧
    (∀ (db : List Comment) (pq lq : Nat) (s : SortOption) (pf : Option Nat)
        (cs : List Comment) (m : Pagination),
      getComments db pq lq s pf = .success cs m →
        m = buildPagination m.total (max 1 pq) (min (max 1 lq) 100)) ∧
    (buildPagination 25 1 10).startIndex = 1 ∧
    (buildPagination 25 1 10).endIndex = 10 ∧
    (buildPagination 25 1 10).remainingItems = 15 ∧
    (buildPagination 25 1 10).hasNextPage = true ∧
    (buildPagination 25 1 10).isFirstPage = true ∧
    (buildPagination 25 3 10).startIndex = 21 ∧
    (buildPagination 25 3 10).endIndex = 25 ∧
    (buildPagination 25 3 10).remainingItems = 0 ∧
    (buildPagination 25 3 10).isLastPage = true := by
  have hmul : (page - 1) * limit + limit = page * limit := by
    cases page with
    | zero => omega
    | succ p => simp [Nat.succ_sub_one, Nat.succ_mul]
  refine ⟨rfl, ?_, ?_, ?_, by simp [buildPagination], by simp [buildPagination],
    ?_, ?_, ?_, by decide, by decide, by decide, by decide, by decide,
    by decide, by decide, by decide, by decide⟩
  · simp only [buildPagination]
    rw [hmul]
  · simp only [buildPagination]
    rw [hmul]
    have hk : ((page * limit : Nat) : Int) = (page : Int) * (limit : Int) := by
      push_cast
      ring
    rw [← hk]
    generalize page * limit = k
    rcases Nat.le_total total k with hle | hle
    · rw [Nat.sub_eq_zero_of_le hle]
      have h2 : (total : Int) - (k : Int) ≤ 0 := by
        have h3 := Int.ofNat_le.mpr hle
        omega
      rw [max_eq_left h2]
      simp
    · have h2 : (0 : Int) ≤ (total : Int) - (k : Int) := by
        have h3 := Int.ofNat_le.mpr hle
        omega
      rw [max_eq_right h2]
      have h4 := Int.ofNat_le.mpr hle
      omega
  · intro n
    simp only [buildPagination]
    exact ceilDiv_le_iff total limit n hl
  · simp [buildPagination]
  · simp [buildPagination]
  · intro db pq lq s pf cs m h
    simp only [getComments] at h
    split at h
    · exact absurd h (by simp)
    · rw [ListResult.success.injEq] at h
      rw [← h.2]
      rfl

/-- Witness for C5 at a concrete page. -/
theorem pagination_arithmetic_witness :
    (buildPagination 25 2 10).endIndex = min (2 * 10) 25 :=
  (pagination_arithmetic 25 2 10 (by decide) (by decide)).2.1

/-- C6 counterexample: with an empty collection (total = 0) a request for
page 2 answers an empty success, not the page-range error — the error
branch additionally requires totalPages > 0. -/
theorem page_beyond_empty_success :
    getComments [] 2 10 SortOption.newest none =
      .success [] (buildPagination 0 2 10) ∧
    (∀ cur tp tot, getComments [] 2 10 SortOption.newest none ≠
      .pageError cur tp tot) := by
  constructor
  · decide
  · intro cur tp tot h
    rw [show getComments [] 2 10 SortOption.newest none =
      .success [] (buildPagination 0 2 10) from by decide] at h
    exact ListResult.noConfusion h

/-- C6 amended: when at least one matching comment exists, a list call for
a page strictly beyond totalPages answers the page-range error naming the
requested page, totalPages and total — for getComments and for getReplies;
with total = 0 the call instead answers an empty success. -/
theorem page_beyond_error (db : List Comment) (pq lq : Nat) (s : SortOption)
    (pf : Option Nat)
    (h0 : 0 < (db.filter
      (fun c => c.isActive && c.parentComment == pf)).length)
    (hbeyond : ceilDiv
      (db.filter (fun c => c.isActive && c.parentComment == pf)).length
      (min (max 1 lq) 100) < max 1 pq) :
    getComments db pq lq s pf =
      .pageError (max 1 pq)
        (ceilDiv
          (db.filter (fun c => c.isActive && c.parentComment == pf)).length
          (min (max 1 lq) 100))
        (db.filter (fun c => c.isActive && c.parentComment == pf)).length ∧
    ∀ (pid : Nat) (parent : Comment),
      findById db pid = some parent → parent.isActive = true →
      0 < (db.filter
        (fun c => c.parentComment == some pid && c.isActive)).length →
      ceilDiv
        (db.filter (fun c => c.parentComment == some pid && c.isActive)).length
        (min (max 1 lq) 100) < max 1 pq →
      getReplies db pid pq lq s =
        .pageError (max 1 pq)
          (ceilDiv
            (db.filter
              (fun c => c.parentComment == some pid && c.isActive)).length
            (min (max 1 lq) 100))
          (db.filter
            (fun c => c.parentComment == some pid && c.isActive)).length := by
  have hlim : 0 < min (max 1 lq) 100 := by omega
  constructor
  · have hempty : ((sortComments s (db.filter
        (fun c => c.isActive && c.parentComment == pf))).drop
          ((max 1 pq - 1) * min (max 1 lq) 100)).take (min (max 1 lq) 100)
        = [] :=
      slice_nil s _ _ _ (total_le_of_beyond _ _ _ hlim hbeyond)
    have hpos : 0 < ceilDiv
        (db.filter (fun c => c.isActive && c.parentComment == pf)).length
        (min (max 1 lq) 100) := ceilDiv_pos _ _ hlim h0
    simp only [getComments]
    simp [hempty, hbeyond, hpos]
  · intro pid parent hfind hact h0r hbr
    have hempty : ((sortComments s (db.filter
        (fun c => c.parentComment == some pid && c.isActive))).drop
          ((max 1 pq - 1) * min (max 1 lq) 100)).take (min (max 1 lq) 100)
        = [] :=
      slice_nil s _ _ _ (total_le_of_beyond _ _ _ hlim hbr)
    have hpos : 0 < ceilDiv
        (db.filter (fun c => c.parentComment == some pid && c.isActive)).length
        (min (max 1 lq) 100) := ceilDiv_pos _ _ hlim h0r
    simp only [getReplies]
    rw [hfind]
    simp [hact, hempty, hbr, hpos]

/-- Witness for the amended C6: one comment, page 2 of size 10 is beyond
the single page and errors with the range. -/
theorem page_beyond_error_witness :
    getComments [mkComment 1 7 none [] [] true 0] 2 10 SortOption.newest
      none = .pageError 2 1 1 :=
  (page_beyond_error [mkComment 1 7 none [] [] true 0] 2 10
    SortOption.newest none (by decide) (by decide)).1

/-- C4: with sort=mostLiked the handlers sort on the raw likes array field;
the store ranks documents by the maximum array element, not by the array's
length, so a comment with a single dominant like entry is returned before a
comment with three likes — while the ordering the spec words describe
returns the three-like comment first. -/
theorem mostLiked_not_by_count :
    getComments [mkComment 1 7 none [⟨50, 50⟩] [] true 5,
        mkComment 2 8 none [⟨11, 1⟩, ⟨12, 2⟩, ⟨13, 3⟩] [] true 6] 1 10
        SortOption.mostLiked none =
      .success [mkComment 1 7 none [⟨50, 50⟩] [] true 5,
          mkComment 2 8 none [⟨11, 1⟩, ⟨12, 2⟩, ⟨13, 3⟩] [] true 6]
        (buildPagination 2 1 10) ∧
    specSortMostLiked [mkComment 1 7 none [⟨50, 50⟩] [] true 5,
        mkComment 2 8 none [⟨11, 1⟩, ⟨12, 2⟩, ⟨13, 3⟩] [] true 6] =
      [mkComment 2 8 none [⟨11, 1⟩, ⟨12, 2⟩, ⟨13, 3⟩] [] true 6,
        mkComment 1 7 none [⟨50, 50⟩] [] true 5] ∧
    (mkComment 1 7 none [⟨50, 50⟩] [] true 5).likeCount <
      (mkComment 2 8 none [⟨11, 1⟩, ⟨12, 2⟩, ⟨13, 3⟩] [] true 6).likeCount := by
  decide

/-! Client reconciliation layer (CommentItem.tsx socket handlers). -/

/-- A comment as the client displays it. -/
structure ClientComment where
  id : Nat
  parentComment : Option Nat
  likeCount : Nat
  dislikeCount : Nat
  isLikedByUser : Bool
  isDislikedByUser : Bool
  replyCount : Nat
  createdAt : Nat
deriving DecidableEq

/-- Compact constructor for sample client comments in witnesses. -/
def mkClientComment (id : Nat) (parent : Option Nat) (lc dc : Nat)
    (il idl : Bool) (rc created : Nat) : ClientComment :=
  { id := id, parentComment := parent, likeCount := lc, dislikeCount := dc,
    isLikedByUser := il, isDislikedByUser := idl, replyCount := rc,
    createdAt := created }

/-- The local state of one CommentItem: the displayed comment, the replies
loaded from the server, and the replies that arrived over the socket. -/
structure ItemState where
  currentComment : ClientComment
  replies : List ClientComment
  realTimeReplies : List ClientComment
deriving DecidableEq

/-- The type tag of a reaction broadcast. -/
inductive ReactType where
  | like
  | dislike
  | remove
deriving DecidableEq

/-- The payload of a commentReaction / replyReaction broadcast. -/
structure ReactionEvent where
  commentId : Nat
  type : ReactType
  likeCount : Nat
  dislikeCount : Nat
  userId : Nat
deriving DecidableEq

/-- handleNewReply: when the broadcast reply belongs to this comment, it is
prepended to realTimeReplies unless an entry with its id is already there,
and the displayed replyCount is incremented. -/
def handleNewReply (s : ItemState) (nc : ClientComment) : ItemState :=
  if nc.parentComment == some s.currentComment.id then
    { s with
      realTimeReplies :=
        if s.realTimeReplies.any (fun r => r.id == nc.id) then
          s.realTimeReplies
        else nc :: s.realTimeReplies
      currentComment := { s.currentComment with
        replyCount := s.currentComment.replyCount + 1 } }
  else s

/-- handleCommentReaction: for a matching comment id the counts are
overwritten from the event; the like / dislike flags change only when the
event's userId equals the local user's id (no local user: never). -/
def handleCommentReaction (localUser : Option Nat) (s : ItemState)
    (d : ReactionEvent) : ItemState :=
  if d.commentId == s.currentComment.id then
    let base := { s.currentComment with
      likeCount := d.likeCount, dislikeCount := d.dislikeCount }
    let upd :=
      if (match localUser with
          | some u => d.userId == u
          | none => false) then
        match d.type with
        | .like => { base with isLikedByUser := true, isDislikedByUser := false }
        | .dislike => { base with isLikedByUser := false, isDislikedByUser := true }
        | .remove => { base with isLikedByUser := false, isDislikedByUser := false }
      else base
    { s with currentComment := upd }
  else s

/-- allReplies: the displayed reply list — the realtime replies not already
in the server list, then the server list, sorted by createdAt descending. -/
def allReplies (s : ItemState) : List ClientComment :=
  sortList (fun a b => b.createdAt ≤ a.createdAt)
    ((s.realTimeReplies.filter
      (fun r => !((s.replies.map (fun x => x.id)).contains r.id))) ++
      s.replies)

/-- C9: the client merge adds no duplicate — a newReply whose id is already
displayed (in the server list or the realtime list) leaves the displayed
reply list unchanged — and reaction events are caller-scoped: the counts
are always overwritten from the event, while the local flags change only
when the event's userId is the local user's id, in which case they follow
the event type. -/
theorem client_merge_idempotent_scoped (s : ItemState) (nc : ClientComment)
    (d : ReactionEvent) (localUser : Option Nat)
    (hdup : nc.id ∈ s.replies.map (fun r => r.id) ∨
      nc.id ∈ s.realTimeReplies.map (fun r => r.id))
    (hmatch : d.commentId = s.currentComment.id) :
    allReplies (handleNewReply s nc) = allReplies s ∧
    (handleCommentReaction localUser s d).currentComment.likeCount =
      d.likeCount ∧
    (handleCommentReaction localUser s d).currentComment.dislikeCount =
      d.dislikeCount ∧
    (∀ u, localUser = some u → d.userId ≠ u →
      (handleCommentReaction localUser s d).currentComment.isLikedByUser =
        s.currentComment.isLikedByUser ∧
      (handleCommentReaction localUser s d).currentComment.isDislikedByUser =
        s.currentComment.isDislikedByUser) ∧
    (localUser = none →
      (handleCommentReaction localUser s d).currentComment.isLikedByUser =
        s.currentComment.isLikedByUser ∧
      (handleCommentReaction localUser s d).currentComment.isDislikedByUser =
        s.currentComment.isDislikedByUser) ∧
    (∀ u, localUser = some u → d.userId = u →
      (handleCommentReaction localUser s d).currentComment.isLikedByUser =
        (d.type == ReactType.like) ∧
      (handleCommentReaction localUser s d).currentComment.isDislikedByUser =
        (d.type == ReactType.dislike)) := by
  have hbeq : (d.commentId == s.currentComment.id) = true := by
    simp [hmatch]
  refine ⟨?_, ?_, ?_, ?_, ?_, ?_⟩
  · unfold handleNewReply
    cases hpc : nc.parentComment == some s.currentComment.id
    · simp
    · simp only [if_true]
      cases hex : s.realTimeReplies.any (fun r => r.id == nc.id)
      · have hmem : nc.id ∈ s.replies.map (fun r => r.id) := by
          rcases hdup with h | h
          · exact h
          · exfalso
            rw [List.any_eq_false] at hex
            obtain ⟨r, hr, hrid⟩ := List.mem_map.mp h
            exact hex r hr (by simp [hrid])
        have hnall : ¬ (∀ x ∈ s.replies, ¬ x.id = nc.id) := by
          obtain ⟨r, hr, hrid⟩ := List.mem_map.mp hmem
          exact fun hall => hall r hr hrid
        simp [allReplies, List.filter_cons, hnall]
      · simp [allReplies]
  · simp only [handleCommentReaction, hbeq, if_true]
    cases localUser with
    | none => simp
    | some u => cases hd : (d.userId == u) <;> cases d.type <;> simp [hd]
  · simp only [handleCommentReaction, hbeq, if_true]
    cases localUser with
    | none => simp
    | some u => cases hd : (d.userId == u) <;> cases d.type <;> simp [hd]
  · intro u hu hne
    subst hu
    have hdu : (d.userId == u) = false := by simpa using hne
    simp [handleCommentReaction, hbeq, hdu]
  · intro hu
    subst hu
    simp [handleCommentReaction, hbeq]
  · intro u hu heq
    subst hu
    have hdu : (d.userId == u) = true := by simpa using heq
    cases htype : d.type <;> simp [handleCommentReaction, hbeq, hdu, htype]

/-- Witness for C9 at a concrete item state and events. -/
theorem client_merge_idempotent_scoped_witness :
    allReplies (handleNewReply
      ⟨mkClientComment 1 none 0 0 false false 1 0,
        [mkClientComment 2 (some 1) 0 0 false false 0 5], []⟩
      (mkClientComment 2 (some 1) 0 0 false false 0 5)) =
      allReplies ⟨mkClientComment 1 none 0 0 false false 1 0,
        [mkClientComment 2 (some 1) 0 0 false false 0 5], []⟩ ∧
    (handleCommentReaction (some 7)
      ⟨mkClientComment 1 none 0 0 false false 1 0,
        [mkClientComment 2 (some 1) 0 0 false false 0 5], []⟩
      ⟨1, ReactType.like, 3, 0, 9⟩).currentComment.likeCount = 3 := by
  have h := client_merge_idempotent_scoped
    ⟨mkClientComment 1 none 0 0 false false 1 0,
      [mkClientComment 2 (some 1) 0 0 false false 0 5], []⟩
    (mkClientComment 2 (some 1) 0 0 false false 0 5)
    ⟨1, ReactType.like, 3, 0, 9⟩ (some 7) (by decide) (by decide)
  exact ⟨h.1, h.2.1⟩

end CommentEngine
